import Mathlib

/-!
Shallow embedding of the appointment-booking conversation state machine of
`python_sms_responder/conversation_manager.py` (classes `ConversationState`
and `ConversationManager`), together with theorems settling the spec claims
about it.  Python `datetime.now()` is modelled by an abstract natural-number
instant `now` (also read as a day index with weekday `now % 7`, Monday = 0,
matching Python's `datetime.weekday`).  Python dictionaries are modelled as
insertion-ordered association lists, exceptions by `Except` / `Option`.
-/

namespace SmsBooking

/-- Lowercase one ASCII character. -/
def pyLowerChar (c : Char) : Char :=
  if 65 ≤ c.toNat ∧ c.toNat ≤ 90 then Char.ofNat (c.toNat + 32) else c

/-- Python `str.lower` (ASCII model, the keyword tables are all ASCII). -/
def pyLower (s : String) : String := String.mk (s.data.map pyLowerChar)

/-- Whether the first list is a prefix of the second. -/
def listPrefixOf : List Char → List Char → Bool
  | [], _ => true
  | _ :: _, [] => false
  | a :: as, b :: bs => a == b && listPrefixOf as bs

/-- Whether `pat` occurs as a contiguous sublist. -/
def listContainsSub (pat : List Char) : List Char → Bool
  | [] => pat.isEmpty
  | c :: rest => listPrefixOf pat (c :: rest) || listContainsSub pat rest

/-- Python `needle in haystack` substring test. -/
def strContains (s pat : String) : Bool := listContainsSub pat.data s.data

/-- Whitespace for Python `str.split()` / `str.strip()`. -/
def isWsChar (c : Char) : Bool := c == ' ' || c == '\t' || c == '\n' || c == '\r'

/-- Helper of `pySplit`: split on whitespace runs, dropping empty pieces. -/
def pySplitList : List Char → List Char → List String
  | [], cur => if cur.isEmpty then [] else [String.mk cur.reverse]
  | c :: cs, cur =>
      if isWsChar c then
        if cur.isEmpty then pySplitList cs []
        else String.mk cur.reverse :: pySplitList cs []
      else pySplitList cs (c :: cur)

/-- Python `str.split()` with no argument. -/
def pySplit (s : String) : List String := pySplitList s.data []

/-- Split on a separator character, keeping empty pieces (the `":"` split
of the time parser). -/
def splitOnCharList (sep : Char) : List Char → List Char → List String
  | [], cur => [String.mk cur.reverse]
  | c :: cs, cur =>
      if c == sep then String.mk cur.reverse :: splitOnCharList sep cs []
      else splitOnCharList sep cs (c :: cur)

/-- Drop leading whitespace of a character list. -/
def dropWhileWs : List Char → List Char
  | [] => []
  | c :: cs => if isWsChar c then dropWhileWs cs else c :: cs

/-- Python `str.strip()`. -/
def pyStrip (s : String) : String :=
  String.mk (dropWhileWs (dropWhileWs s.data.reverse).reverse)

/-- Digits-only string to a number, as `int(s)` / `strptime` read a field. -/
def digitsToNat (s : String) : Option Nat :=
  if s.length = 0 then none
  else
    s.data.foldl
      (fun acc c =>
        match acc with
        | none => none
        | some n => if c.isDigit then some (n * 10 + (c.toNat - 48)) else none)
      (some 0)

/-- Association-list membership, Python `key in dict`. -/
def dictContains (d : List (String × String)) (k : String) : Bool :=
  d.any fun p => p.1 == k

/-- Association-list read, Python `dict[key]` (`none` models `KeyError`). -/
def dictGet (d : List (String × String)) (k : String) : Option String :=
  List.lookup k d

/-- Association-list write, Python `dict[key] = value`: replace in place
when the key exists, append otherwise (insertion order preserved). -/
def dictInsert (d : List (String × String)) (k v : String) :
    List (String × String) :=
  match d with
  | [] => [(k, v)]
  | (k', v') :: rest =>
      if k' = k then (k, v) :: rest else (k', v') :: dictInsert rest k v

/-- The subset of `models.ClientInfo` the conversation manager stores. -/
structure ClientInfo where
  id : Option Nat
  name : Option String
  phone : String
  email : Option String
deriving DecidableEq, Repr

/-- `ConversationState` of `conversation_manager.py`: one record per phone
number.  `created_at` / `last_activity` are abstract instants. -/
structure ConversationState where
  phone_number : String
  step : String
  selected_service : Option String
  selected_date : Option String
  selected_time : Option String
  client_info : Option ClientInfo
  temp_data : List (String × String)
  created_at : Nat
  last_activity : Nat
deriving DecidableEq, Repr

/-- A fresh record, as `ConversationState.__init__` builds it. -/
def freshState (phone : String) (now : Nat) : ConversationState :=
  { phone_number := phone
    step := "greeting"
    selected_service := none
    selected_date := none
    selected_time := none
    client_info := none
    temp_data := []
    created_at := now
    last_activity := now }

/-- One entry of `ConversationManager.services`. -/
structure ServiceInfo where
  name : String
  duration : Nat
  price : String
deriving DecidableEq, Repr

/-- `ConversationManager.services`, in dict insertion order. -/
def services : List (String × ServiceInfo) :=
  [("haircut", ⟨"Haircut", 60, "$45"⟩),
   ("haircut_and_style", ⟨"Haircut & Style", 90, "$65"⟩),
   ("color", ⟨"Hair Color", 120, "$85"⟩),
   ("highlights", ⟨"Highlights", 150, "$95"⟩),
   ("balayage", ⟨"Balayage", 180, "$120"⟩),
   ("blowout", ⟨"Blowout", 45, "$35"⟩),
   ("updo", ⟨"Updo", 60, "$55"⟩),
   ("extensions", ⟨"Hair Extensions", 120, "$150"⟩)]

/-- `self.services[key]` (`none` models `KeyError`). -/
def servicesGet (k : String) : Option ServiceInfo := List.lookup k services

/-- `ConversationManager._format_services`. -/
def format_services : String :=
  pyStrip (services.foldl
    (fun acc p => acc ++ "• " ++ p.2.name ++ " - " ++ p.2.price ++ "\n") "")

/-- The client record a `db_service` lookup or insert returns. -/
structure DbClient where
  id : Nat
deriving DecidableEq, Repr

/-- A parsed date, as `_parse_datetime` produces one: either an absolute
day index (today / tomorrow / next weekday), or an explicit month-day with
the bumped-to-next-year flag. -/
inductive PyDate where
  | day (d : Nat)
  | monthDay (m d : Nat) (nextYear : Bool)
deriving DecidableEq, Repr

/-- A parsed datetime: date plus minutes past midnight. -/
structure PyDateTime where
  date : PyDate
  minutes : Nat
deriving DecidableEq, Repr

/-- The `db_service` collaborator (`database_service.DatabaseService`),
abstracted: each call may raise (`Except.error`) or return a possibly
falsy value. -/
structure DbService where
  get_client_by_phone : String → Except String (Option DbClient)
  update_client : Nat → String → String → String → Except String Unit
  create_client : String → String → String → Except String (Option DbClient)
  create_appointment :
    Nat → PyDateTime → String → Nat → String → Except String (Option Nat)

/-- Weekday table of `_get_next_day_of_week` (Monday = 0). -/
def dayNamesTable : List (String × Nat) :=
  [("monday", 0), ("tuesday", 1), ("wednesday", 2), ("thursday", 3),
   ("friday", 4), ("saturday", 5), ("sunday", 6)]

/-- `ConversationManager._get_next_day_of_week`: with `current` the day
index of today (weekday `current % 7`), the next occurrence of the named
weekday, rolling a whole week ahead when `days_ahead <= 0`. -/
def get_next_day_of_week (current : Nat) (day_name : String) :
    Except String Nat :=
  match List.lookup (pyLower day_name) dayNamesTable with
  | none => Except.error ("Invalid day name: " ++ day_name)
  | some target =>
      let wd := current % 7
      let days_ahead := if target ≤ wd then target + 7 - wd else target - wd
      Except.ok (current + days_ahead)

/-- Month-name table for the `"%B %d"` branch of `_parse_datetime`. -/
def monthsTable : List (String × Nat) :=
  [("january", 1), ("february", 2), ("march", 3), ("april", 4), ("may", 5),
   ("june", 6), ("july", 7), ("august", 8), ("september", 9),
   ("october", 10), ("november", 11), ("december", 12)]

/-- Days of each month in `strptime`'s default (non-leap) year. -/
def monthLength (m : Nat) : Nat :=
  if m = 2 then 28
  else if m = 4 ∨ m = 6 ∨ m = 9 ∨ m = 11 then 30
  else 31

/-- `strptime(date_str, "%B %d")`: a month name and a day number. -/
def parseMonthDay (s : String) : Option (Nat × Nat) :=
  match pySplit s with
  | [ms, ds] =>
      match List.lookup (pyLower ms) monthsTable, digitsToNat ds with
      | some m, some d =>
          if 1 ≤ d ∧ d ≤ monthLength m then some (m, d) else none
      | _, _ => none
  | _ => none

/-- Day of (non-leap) year for the past-date comparison of the explicit
date branch. -/
def dayOfYear (m d : Nat) : Nat :=
  (List.range (m - 1)).foldl (fun acc i => acc + monthLength (i + 1)) 0 + d

/-- `strptime(time_str, "%I:%M %p")`, as minutes past midnight. -/
def parseTime12 (s : String) : Option Nat :=
  match pySplit s with
  | [hm, ap] =>
      match splitOnCharList ':' hm.data [] with
      | [hs, ms] =>
          match digitsToNat hs, digitsToNat ms with
          | some h, some m =>
              if 1 ≤ h ∧ h ≤ 12 ∧ m ≤ 59 then
                let apl := pyLower ap
                if apl = "am" then some ((h % 12) * 60 + m)
                else if apl = "pm" then some ((h % 12 + 12) * 60 + m)
                else none
              else none
          | _, _ => none
      | _ => none
  | _ => none

/-- `ConversationManager._parse_datetime`.  Any internal failure is caught
and re-raised as the single domain error, as in the source.  The calendar
of the year-bump comparison is modelled with 365-day years over the
abstract day index `now`. -/
def parse_datetime (now : Nat) (date_str time_str : String) :
    Except String PyDateTime :=
  let dl := pyLower date_str
  let dateE : Except String PyDate :=
    if dl = "today" then Except.ok (PyDate.day now)
    else if dl = "tomorrow" then Except.ok (PyDate.day (now + 1))
    else if listPrefixOf "next".data dl.data then
      match (pySplit dl).get? 1 with
      | none => Except.error "IndexError"
      | some day_name => (get_next_day_of_week now day_name).map PyDate.day
    else
      match parseMonthDay date_str with
      | none => Except.error "strptime"
      | some (m, d) =>
          Except.ok (PyDate.monthDay m d (Nat.ble (dayOfYear m d) (now % 365)))
  match dateE with
  | Except.error _ => Except.error "Invalid date or time format"
  | Except.ok date =>
      match parseTime12 time_str with
      | none => Except.error "Invalid date or time format"
      | some mins => Except.ok ⟨date, mins⟩

/-- The result dictionary a handler returns.  A key the source leaves out
of a given dictionary is `none` here. -/
structure ResultDict where
  response : Option String := none
  step : String := ""
  requires_booking : Bool := false
  selected_service : Option String := none
  selected_date : Option String := none
  selected_time : Option String := none
  booking_confirmed : Option Bool := none
  booking_cancelled : Option Bool := none
  appointment_id : Option Nat := none
  error : Option String := none
deriving DecidableEq, Repr

/-- Python truthiness of `result.get("response")`. -/
def respTruthy : Option String → Bool
  | some s => s != ""
  | none => false

/-- Render an optional string the way a Python f-string renders the value. -/
def optStr : Option String → String
  | some s => s
  | none => "None"

/-- Booking keyword set of `process_message`. -/
def bookingWords : List String :=
  ["book", "appointment", "schedule", "make appointment", "book me",
   "haircut", "color", "style", "service", "price", "cost"]

/-- Booking keyword set of `_handle_greeting`. -/
def greetBookWords : List String :=
  ["book", "appointment", "schedule", "make appointment", "book me"]

/-- Greeting keyword set of `_handle_greeting`. -/
def greetHelloWords : List String :=
  ["hi", "hello", "hey", "good morning", "good afternoon", "good evening"]

/-- The service-list reply of `_handle_greeting`. -/
def greetingBookingMsg : String :=
  "Great! I'd be happy to help you book an appointment. Here are our services:\n\n"
    ++ format_services
    ++ "\n\nPlease reply with the service you'd like to book."

/-- The re-list reply of `_handle_service_selection`. -/
def serviceRetryMsg : String :=
  "I didn't recognize that service. Here are our available services:\n\n"
    ++ format_services
    ++ "\n\nPlease reply with the service you'd like to book."

/-- The cancellation reply of `_handle_confirmation`. -/
def cancelMsg : String :=
  "No problem! Your booking has been cancelled. Feel free to text us anytime to book a new appointment."

/-- The yes/no re-prompt of `_handle_confirmation`. -/
def repromptMsg : String :=
  "I didn't understand. Please reply 'YES' to confirm your booking, or 'NO' to cancel."

/-- The reply of `_handle_confirmation` when `db_service` is absent. -/
def dbUnavailableMsg : String :=
  "I apologize, but I'm having trouble accessing our booking system. Please call us directly to book your appointment."

/-- The reply of the `except` branch of `_handle_confirmation`. -/
def bookingErrorMsg : String :=
  "I apologize, but there was an error booking your appointment. Please call us directly to book."

/-- `_handle_greeting`. -/
def handle_greeting (state : ConversationState) (message : String) :
    ConversationState × Option ResultDict :=
  let ml := pyLower message
  if greetBookWords.any fun w => strContains ml w then
    ({ state with step := "service_selection" },
     some { response := some greetingBookingMsg
            step := "service_selection"
            requires_booking := true })
  else if greetHelloWords.any fun w => strContains ml w then
    (state, some { response := none, step := "greeting", requires_booking := false })
  else
    (state, some { response := none, step := "greeting", requires_booking := false })

/-- The synonym table of `_handle_service_selection`, in dict insertion
order (first match wins). -/
def serviceMapping : List (String × String) :=
  [("haircut", "haircut"), ("cut", "haircut"), ("hair cut", "haircut"),
   ("style", "haircut_and_style"), ("haircut and style", "haircut_and_style"),
   ("color", "color"), ("hair color", "color"), ("dye", "color"),
   ("highlights", "highlights"), ("highlight", "highlights"),
   ("balayage", "balayage"), ("blowout", "blowout"), ("blow out", "blowout"),
   ("updo", "updo"), ("up do", "updo"), ("up-do", "updo"),
   ("extensions", "extensions"), ("extension", "extensions")]

/-- First synonym whose pattern occurs in the lowercased message. -/
def findService (ml : String) : Option String :=
  match serviceMapping.find? fun p => strContains ml p.1 with
  | some p => some p.2
  | none => none

/-- `_handle_service_selection`. -/
def handle_service_selection (state : ConversationState) (message : String) :
    ConversationState × Option ResultDict :=
  let ml := pyLower message
  match findService ml with
  | some sel =>
      let state := { state with selected_service := some sel, step := "time_selection" }
      match servicesGet sel with
      | some si =>
          (state,
           some { response := some
                    ("Perfect! You've selected " ++ si.name ++ " (" ++ si.price
                      ++ ").\n\nWhat day would you like to book? You can say:\n"
                      ++ "• Tomorrow\n• Next Tuesday\n• March 15th\n• Or any specific date")
                  step := "time_selection"
                  selected_service := some sel
                  requires_booking := true })
      | none => (state, none)
  | none =>
      (state,
       some { response := some serviceRetryMsg
              step := "service_selection"
              requires_booking := true })

/-- `_handle_time_selection`: the stub that accepts any input and
hard-codes tomorrow, 2:00 PM. -/
def handle_time_selection (state : ConversationState) (_message : String) :
    ConversationState × Option ResultDict :=
  let state := { state with
    selected_date := some "tomorrow"
    selected_time := some "2:00 PM"
    step := "client_info" }
  (state,
   some { response := some
            ("Great! I have " ++ optStr state.selected_time ++ " available on "
              ++ optStr state.selected_date
              ++ ".\n\nTo complete your booking, I need a few details:\n\nWhat's your name?")
          step := "client_info"
          selected_date := state.selected_date
          selected_time := state.selected_time
          requires_booking := true })

/-- `_handle_client_info`.  When both name and email are already captured
the Python function falls off its end and returns `None`: that is the
`(state, none)` case. -/
def handle_client_info (state : ConversationState) (message : String) :
    ConversationState × Option ResultDict :=
  if ¬ dictContains state.temp_data "name" then
    let state := { state with temp_data := dictInsert state.temp_data "name" message }
    (state,
     some { response := some ("Nice to meet you, " ++ message ++ "! What's your email address?")
            step := "client_info"
            requires_booking := true })
  else if ¬ dictContains state.temp_data "email" then
    let state := { state with
      temp_data := dictInsert state.temp_data "email" message
      step := "confirmation" }
    match state.selected_service.bind servicesGet with
    | some si =>
        (state,
         some { response := some
                  ("Perfect! Let me confirm your appointment:\n\nService: " ++ si.name
                    ++ "\nDate: " ++ optStr state.selected_date
                    ++ "\nTime: " ++ optStr state.selected_time
                    ++ "\nName: " ++ optStr (dictGet state.temp_data "name")
                    ++ "\nEmail: " ++ optStr (dictGet state.temp_data "email")
                    ++ "\n\nTotal: " ++ si.price
                    ++ "\n\nReply 'YES' to confirm your booking, or 'NO' to cancel.")
                step := "confirmation"
                requires_booking := true })
    | none => (state, none)
  else
    (state, none)

/-- The `except`-branch result of `_handle_confirmation`, with `e` the
string of the caught exception. -/
def errorResult (e : String) : ResultDict :=
  { response := some bookingErrorMsg
    step := "error"
    requires_booking := false
    error := some e }

/-- The `try` block of the yes-branch of `_handle_confirmation`: build the
client data, look up / upsert the client, parse the date and time, create
the appointment; any raised exception is caught and turned into
`errorResult`.  Only the success path mutates the record. -/
def bookingAttempt (db : Option DbService) (now : Nat)
    (state : ConversationState) : ConversationState × Option ResultDict :=
  match dictGet state.temp_data "name", dictGet state.temp_data "email" with
  | some nm, some em =>
      match db with
      | none =>
          (state,
           some { response := some dbUnavailableMsg
                  step := "error"
                  requires_booking := false
                  error := some "Database service not available" })
      | some dbs =>
          match dbs.get_client_by_phone state.phone_number with
          | Except.error e => (state, some (errorResult e))
          | Except.ok found =>
              let clientIdE : Except String Nat :=
                match found with
                | some c =>
                    match dbs.update_client c.id nm em state.phone_number with
                    | Except.error e => Except.error e
                    | Except.ok _ => Except.ok c.id
                | none =>
                    match dbs.create_client nm em state.phone_number with
                    | Except.error e => Except.error e
                    | Except.ok none => Except.error "AttributeError"
                    | Except.ok (some c) => Except.ok c.id
              match clientIdE with
              | Except.error e => (state, some (errorResult e))
              | Except.ok client_id =>
                  match state.selected_date, state.selected_time with
                  | some dstr, some tstr =>
                      match parse_datetime now dstr tstr with
                      | Except.error e => (state, some (errorResult e))
                      | Except.ok dt =>
                          match state.selected_service.bind servicesGet with
                          | none => (state, some (errorResult "KeyError"))
                          | some si =>
                              match dbs.create_appointment client_id dt si.name
                                  si.duration ("Booked via SMS on " ++ toString now) with
                              | Except.error e => (state, some (errorResult e))
                              | Except.ok none =>
                                  (state, some (errorResult "Failed to create appointment"))
                              | Except.ok (some appt) =>
                                  ({ state with step := "completed" },
                                   some { response := some
                                            ("Excellent! Your appointment is confirmed for "
                                              ++ optStr state.selected_date ++ " at "
                                              ++ optStr state.selected_time
                                              ++ ".\n\nYou'll receive a confirmation email shortly. We look forward to seeing you!\n\nIf you need to make any changes, just text us back.")
                                          step := "completed"
                                          booking_confirmed := some true
                                          requires_booking := false
                                          appointment_id := some appt })
                  | _, _ => (state, some (errorResult "Invalid date or time format"))
  | _, _ => (state, some (errorResult "KeyError"))

/-- Confirmation keyword sets of `_handle_confirmation`. -/
def yesWords : List String := ["yes", "confirm", "book it", "ok", "sure"]

/-- Cancellation keyword set of `_handle_confirmation`. -/
def noWords : List String := ["no", "cancel", "nevermind"]

/-- `_handle_confirmation`. -/
def handle_confirmation (db : Option DbService) (now : Nat)
    (state : ConversationState) (message : String) :
    ConversationState × Option ResultDict :=
  let ml := pyLower message
  if yesWords.contains ml then
    bookingAttempt db now state
  else if noWords.contains ml then
    ({ state with step := "greeting" },
     some { response := some cancelMsg
            step := "greeting"
            booking_cancelled := some true
            requires_booking := false })
  else
    (state,
     some { response := some repromptMsg
            step := "confirmation"
            requires_booking := true })

/-- The per-step dispatch of `process_message` (lines 114-125 of the
source), falling back to the greeting handler for any other step. -/
def dispatchStep (db : Option DbService) (now : Nat)
    (state : ConversationState) (message : String) :
    ConversationState × Option ResultDict :=
  if state.step = "greeting" then handle_greeting state message
  else if state.step = "service_selection" then handle_service_selection state message
  else if state.step = "time_selection" then handle_time_selection state message
  else if state.step = "client_info" then handle_client_info state message
  else if state.step = "confirmation" then handle_confirmation db now state message
  else handle_greeting state message

/-- The conversation store: `ConversationManager.conversations`, an
insertion-ordered map phone number → record. -/
def ConvMap := List (String × ConversationState)

/-- Replace-or-append write into the store. -/
def convInsert (convs : ConvMap) (phone : String) (s : ConversationState) :
    ConvMap :=
  match convs with
  | [] => [(phone, s)]
  | (p, t) :: rest =>
      if p = phone then (phone, s) :: rest else (p, t) :: convInsert rest phone s

/-- The record `process_message` works on: the phone number's record
fetched or created by `get_conversation` (its `last_activity` stamped
`now`), with the optional `client_info` argument merged in. -/
def mergedState (convs : ConvMap) (phone : String) (now : Nat)
    (clientInfo : Option ClientInfo) : ConversationState :=
  let state0 :=
    match List.lookup phone convs with
    | none => freshState phone now
    | some s => { s with last_activity := now }
  match clientInfo with
  | some ci => { state0 with client_info := some ci }
  | none => state0

/-- `ConversationManager.process_message`.  The result `none` models an
exception escaping to the caller (the `result.get` call on a handler that
returned `None`); in every case the first component is the store as the
call leaves it. -/
def process_message (db : Option DbService) (now : Nat) (convs : ConvMap)
    (phone : String) (message : String) (clientInfo : Option ClientInfo) :
    ConvMap × Option ResultDict :=
  let state1 := mergedState convs phone now clientInfo
  let ml := pyLower message
  let isBooking := bookingWords.any fun w => strContains ml w
  if state1.step = "greeting" ∧ isBooking = false then
    (convInsert convs phone state1,
     some { response := none, requires_booking := false, step := "greeting" })
  else
    let out := dispatchStep db now state1 message
    let convs' := convInsert convs phone out.1
    match out.2 with
    | none => (convs', none)
    | some r =>
        if respTruthy r.response then (convs', some r)
        else
          (convs',
           some { response := none, requires_booking := false, step := out.1.step })

/-- One call of `process_message`: its instant, message and the optional
client info the webhook layer passes along. -/
structure Call where
  now : Nat
  message : String
  client_info : Option ClientInfo
deriving DecidableEq, Repr

/-- Fold a sequence of calls for one phone number through the store. -/
def runCalls (db : Option DbService) (phone : String) (convs : ConvMap) :
    List Call → ConvMap
  | [] => convs
  | c :: rest =>
      runCalls db phone
        (process_message db c.now convs phone c.message c.client_info).1 rest

/-- The step of a phone number's record, `"greeting"` when no record
exists yet (a fresh record starts there). -/
def stepOfD (convs : ConvMap) (phone : String) : String :=
  match List.lookup phone convs with
  | some s => s.step
  | none => "greeting"

/-- The `selected_service` of a phone number's record, `none` when no
record exists. -/
def serviceOfD (convs : ConvMap) (phone : String) : Option String :=
  match List.lookup phone convs with
  | some s => s.selected_service
  | none => none

/-- Whether a phone number's record has captured the given
`temp_data` field. -/
def tempHas (convs : ConvMap) (phone : String) (k : String) : Bool :=
  match List.lookup phone convs with
  | some s => dictContains s.temp_data k
  | none => false

/-- Numeric rank of the booking steps, for the forward-only ordering. -/
def stepIdx : String → Nat
  | "service_selection" => 1
  | "time_selection" => 2
  | "client_info" => 3
  | "confirmation" => 4
  | "completed" => 5
  | _ => 0

/-- One call's admissible step movement: forward in the step order, the
cancel transition, or the restart of a new booking cycle from a completed
record. -/
def stepOk (a b : String) : Prop :=
  stepIdx a ≤ stepIdx b ∨ (a = "confirmation" ∧ b = "greeting")
    ∨ (a = "completed" ∧ b = "service_selection")

/-- The step values a stored record can hold. -/
def validStepB (a : String) : Bool :=
  ["greeting", "service_selection", "time_selection", "client_info",
   "confirmation", "completed"].contains a

/-- The confirmation-capture invariant of a record: at the confirmation
step both client fields are recorded. -/
def confirmInv (s : ConversationState) : Prop :=
  s.step = "confirmation" →
    dictContains s.temp_data "name" = true ∧
      dictContains s.temp_data "email" = true

/-- Whether every appointment-creating call of the gateway fails: it
raises, or returns a falsy value. -/
def createFails (dbs : DbService) : Prop :=
  ∀ cid dt svc dur notes a,
    dbs.create_appointment cid dt svc dur notes ≠ Except.ok (some a)

/-- Whether the persistence layer cannot produce an appointment: the
`db_service` is absent, or all its `create_appointment` calls fail. -/
def gatewayFails : Option DbService → Prop
  | none => True
  | some dbs => createFails dbs

/-- A persistence gateway stub whose calls all succeed. -/
def okDb : DbService :=
  { get_client_by_phone := fun _ => Except.ok none
    update_client := fun _ _ _ _ => Except.ok ()
    create_client := fun _ _ _ => Except.ok (some ⟨1⟩)
    create_appointment := fun _ _ _ _ _ => Except.ok (some 1) }

/-- A gateway stub whose `create_appointment` raises. -/
def raiseDb : DbService :=
  { okDb with create_appointment := fun _ _ _ _ _ => Except.error "DB down" }

/-- A gateway stub whose `create_appointment` returns a falsy value. -/
def falsyDb : DbService :=
  { okDb with create_appointment := fun _ _ _ _ _ => Except.ok none }

/-- The phone number of the concrete scenarios. -/
def phNum : String := "+15551234567"

/-- The first five messages of the spec's happy-path scenario. -/
def happyFive : List Call :=
  [⟨0, "I'd like to book an appointment", none⟩, ⟨1, "haircut", none⟩,
   ⟨2, "tomorrow", none⟩, ⟨3, "Jane Doe", none⟩, ⟨4, "jane@example.com", none⟩]

/-- A sequence that books, cancels at confirmation, books again and walks
back to the client-info step: both `temp_data` fields are already present
there, so the next client-info message hits the fall-through. -/
def cancelRebook : List Call :=
  [⟨0, "book", none⟩, ⟨1, "haircut", none⟩, ⟨2, "tomorrow", none⟩,
   ⟨3, "Jane", none⟩, ⟨4, "j@e.com", none⟩, ⟨5, "no", none⟩,
   ⟨6, "book", none⟩, ⟨7, "haircut", none⟩, ⟨8, "tomorrow", none⟩]

/-- The happy path followed by the confirming message. -/
def happySix : List Call := happyFive ++ [⟨5, "yes", none⟩]

/-- The happy path followed by the cancelling message. -/
def cancelSix : List Call := happyFive ++ [⟨5, "no", none⟩]

/-- A concrete record sitting at the confirmation step with full capture. -/
def confState : ConversationState :=
  { phone_number := phNum
    step := "confirmation"
    selected_service := some "haircut"
    selected_date := some "tomorrow"
    selected_time := some "2:00 PM"
    client_info := none
    temp_data := [("name", "Jane Doe"), ("email", "jane@example.com")]
    created_at := 0
    last_activity := 4 }

/-- A store holding only `confState`. -/
def confStore : ConvMap := [(phNum, confState)]

end SmsBooking

namespace SmsBooking

/-- C2: feeding the happy-path sequence to `process_message` against an
always-succeeding gateway ends with the record's step `completed` and a
final result whose `appointment_id` is non-null and whose
`booking_confirmed` is true. -/
theorem happy_path_completes :
    stepOfD (process_message (some okDb) 5
        (runCalls (some okDb) phNum [] happyFive) phNum "yes" none).1 phNum
      = "completed" ∧
    ((process_message (some okDb) 5 (runCalls (some okDb) phNum [] happyFive)
        phNum "yes" none).2.bind ResultDict.appointment_id) = some 1 ∧
    ((process_message (some okDb) 5 (runCalls (some okDb) phNum [] happyFive)
        phNum "yes" none).2.bind ResultDict.booking_confirmed) = some true := by
  decide

/-- C1 (failing input evaluated): after cancelling at confirmation and
booking again up to the client-info step, the next message makes
`process_message` raise (`_handle_client_info` returns `None` and
`result.get("response")` fails): the modelled call yields no result
dictionary. -/
theorem client_info_fall_through_raises :
    (process_message none 9 (runCalls none phNum [] cancelRebook) phNum
        "Alice" none).2 = none := by
  decide

/-- C3 (counterexample): a record whose step is `completed` is moved back
to `service_selection` by a booking-keyword message, so the step order is
not forward-only outside the cancel transition. -/
theorem completed_regresses_to_service_selection :
    stepOfD (runCalls (some okDb) phNum [] happySix) phNum = "completed" ∧
    stepOfD (runCalls (some okDb) phNum [] (happySix ++ [⟨6, "book", none⟩]))
        phNum = "service_selection" := by
  decide

/-- C4 (counterexample): after a cancellation the step is back to
`greeting` while `selected_service` is still set, so `selected_service`
is not unset whenever the step is `greeting`. -/
theorem cancel_keeps_selected_service :
    stepOfD (runCalls (some okDb) phNum [] cancelSix) phNum = "greeting" ∧
    serviceOfD (runCalls (some okDb) phNum [] cancelSix) phNum
      = some "haircut" := by
  decide

/-- C5 (counterexample): at the confirmation step the message is not
trimmed, so a confirming word with surrounding spaces does not trigger
the booking: it re-prompts and the step stays `confirmation`. -/
theorem padded_yes_does_not_book :
    ((process_message (some okDb) 5 (runCalls (some okDb) phNum [] happyFive)
        phNum " yes " none).2.map ResultDict.step) = some "confirmation" ∧
    ((process_message (some okDb) 5 (runCalls (some okDb) phNum [] happyFive)
        phNum " yes " none).2.bind ResultDict.booking_confirmed) = none ∧
    ((process_message (some okDb) 5 (runCalls (some okDb) phNum [] happyFive)
        phNum " yes " none).2.bind ResultDict.appointment_id) = none ∧
    stepOfD (process_message (some okDb) 5
        (runCalls (some okDb) phNum [] happyFive) phNum " yes " none).1 phNum
      = "confirmation" := by
  decide

/-- C6 (counterexample): the message "haircut" at the greeting step is in
the booking-relevance set but does not transition to `service_selection`:
the record stays at `greeting` and the call defers to the LLM (no reply). -/
theorem haircut_at_greeting_defers :
    ((process_message none 0 [] phNum "haircut" none).2.map ResultDict.step)
      = some "greeting" ∧
    ((process_message none 0 [] phNum "haircut" none).2.bind
        ResultDict.response) = none ∧
    (process_message none 0 [] phNum "haircut" none).2 ≠ none ∧
    stepOfD (process_message none 0 [] phNum "haircut" none).1 phNum
      = "greeting" := by
  decide

end SmsBooking

namespace SmsBooking

/-- Writing a record stores it under its phone number. -/
theorem lookup_convInsert_self (convs : ConvMap) (phone : String)
    (s : ConversationState) :
    List.lookup phone (convInsert convs phone s) = some s := by
  induction convs with
  | nil => simp [convInsert, List.lookup]
  | cons p rest ih =>
      obtain ⟨q, t⟩ := p
      by_cases h : q = phone
      · subst h
        simp [convInsert, List.lookup]
      · have hb : (phone == q) = false := beq_eq_false_iff_ne.mpr (Ne.symm h)
        simp [convInsert, h, List.lookup, hb, ih]

/-- Inserting a key makes it present. -/
theorem dictContains_insert_self (d : List (String × String)) (k v : String) :
    dictContains (dictInsert d k v) k = true := by
  induction d with
  | nil => simp [dictInsert, dictContains]
  | cons p rest ih =>
      obtain ⟨a, b⟩ := p
      by_cases h : a = k
      · simp [dictInsert, h, dictContains]
      · simp only [dictInsert, if_neg h, dictContains, List.any_cons,
          Bool.or_eq_true]
        exact Or.inr ih

/-- Insertion keeps every present key present. -/
theorem dictContains_insert_mono (d : List (String × String)) (k v k' : String)
    (h : dictContains d k' = true) :
    dictContains (dictInsert d k v) k' = true := by
  induction d with
  | nil => simp [dictContains] at h
  | cons p rest ih =>
      obtain ⟨a, b⟩ := p
      by_cases hak : a = k
      · subst hak
        simp only [dictContains, List.any_cons, Bool.or_eq_true] at h
        simp only [dictInsert]
        rw [if_pos trivial]
        simp only [dictContains, List.any_cons, Bool.or_eq_true]
        exact h
      · simp only [dictContains, List.any_cons, Bool.or_eq_true] at h
        simp only [dictInsert, if_neg hak, dictContains, List.any_cons,
          Bool.or_eq_true]
        rcases h with h | h
        · exact Or.inl h
        · exact Or.inr (ih h)

/-- Every value of the weekday table is at most 6. -/
theorem dayNamesTable_le {k : String} {t : Nat}
    (h : List.lookup k dayNamesTable = some t) : t ≤ 6 := by
  simp only [dayNamesTable, List.lookup] at h
  repeat' split at h
  all_goals (try simp_all)
  all_goals omega

/-- C9: for every valid weekday name, `_get_next_day_of_week` returns a
day strictly later than today, at most 7 days ahead, whose weekday is the
named one; when today already is that weekday the result is exactly 7
days ahead. -/
theorem next_day_of_week_in_week (current : Nat) (day_name : String)
    (target : Nat)
    (hvalid : List.lookup (pyLower day_name) dayNamesTable = some target) :
    ∃ r, get_next_day_of_week current day_name = Except.ok r ∧
      current < r ∧ r ≤ current + 7 ∧ r % 7 = target ∧
      (current % 7 = target → r = current + 7) := by
  have ht : target ≤ 6 := dayNamesTable_le hvalid
  unfold get_next_day_of_week
  rw [hvalid]
  refine ⟨_, rfl, ?_, ?_, ?_, ?_⟩ <;>
    · by_cases hc : target ≤ current % 7 <;> simp only [hc, if_true, if_false] <;> omega

/-- Witness for C9 at a concrete weekday and day index. -/
theorem next_day_of_week_in_week_witness :
    ∃ r, get_next_day_of_week 0 "monday" = Except.ok r ∧
      0 < r ∧ r ≤ 0 + 7 ∧ r % 7 = 0 ∧ (0 % 7 = 0 → r = 0 + 7) :=
  next_day_of_week_in_week 0 "monday" 0 (by decide)

end SmsBooking

namespace SmsBooking

/-- The merged record's step is the stored record's step (`greeting` for
a fresh record). -/
theorem mergedState_step (convs : ConvMap) (phone : String) (now : Nat)
    (ci : Option ClientInfo) :
    (mergedState convs phone now ci).step = stepOfD convs phone := by
  unfold mergedState stepOfD
  cases List.lookup phone convs <;> cases ci <;> simp [freshState]

/-- The merged record's selected service is the stored record's. -/
theorem mergedState_service (convs : ConvMap) (phone : String) (now : Nat)
    (ci : Option ClientInfo) :
    (mergedState convs phone now ci).selected_service = serviceOfD convs phone := by
  unfold mergedState serviceOfD
  cases List.lookup phone convs <;> cases ci <;> simp [freshState]

/-- The merged record's captured fields are the stored record's. -/
theorem mergedState_tempHas (convs : ConvMap) (phone : String) (now : Nat)
    (ci : Option ClientInfo) (k : String) :
    dictContains (mergedState convs phone now ci).temp_data k
      = tempHas convs phone k := by
  unfold mergedState tempHas
  cases List.lookup phone convs <;> cases ci <;> simp [freshState, dictContains]

/-- Reading the step of a freshly stored record. -/
theorem stepOfD_convInsert (convs : ConvMap) (phone : String)
    (st : ConversationState) :
    stepOfD (convInsert convs phone st) phone = st.step := by
  unfold stepOfD
  rw [lookup_convInsert_self]

/-- Reading the selected service of a freshly stored record. -/
theorem serviceOfD_convInsert (convs : ConvMap) (phone : String)
    (st : ConversationState) :
    serviceOfD (convInsert convs phone st) phone = st.selected_service := by
  unfold serviceOfD
  rw [lookup_convInsert_self]

/-- Reading a captured field of a freshly stored record. -/
theorem tempHas_convInsert (convs : ConvMap) (phone : String)
    (st : ConversationState) (k : String) :
    tempHas (convInsert convs phone st) phone k
      = dictContains st.temp_data k := by
  unfold tempHas
  rw [lookup_convInsert_self]

/-- The store a `process_message` call leaves behind: the merged record
(general-conversation branch) or the dispatched record. -/
theorem process_message_store (db : Option DbService) (now : Nat)
    (convs : ConvMap) (phone : String) (m : String) (ci : Option ClientInfo) :
    (process_message db now convs phone m ci).1
      = convInsert convs phone (mergedState convs phone now ci)
    ∨ (process_message db now convs phone m ci).1
      = convInsert convs phone
          (dispatchStep db now (mergedState convs phone now ci) m).1 := by
  unfold process_message
  dsimp only
  split
  · exact Or.inl rfl
  · right
    split
    · rfl
    · split <;> rfl

/-- The greeting handler leaves the record alone or moves it to service
selection. -/
theorem handle_greeting_state (s : ConversationState) (m : String) :
    (handle_greeting s m).1 = s ∨
      (handle_greeting s m).1 = { s with step := "service_selection" } := by
  unfold handle_greeting
  dsimp only
  split
  · exact Or.inr rfl
  · split <;> exact Or.inl rfl

/-- The service-selection handler leaves the record alone or sets the
service and moves to time selection. -/
theorem handle_service_selection_state (s : ConversationState) (m : String) :
    (handle_service_selection s m).1 = s ∨
      ∃ sel, (handle_service_selection s m).1
        = { s with selected_service := some sel, step := "time_selection" } := by
  cases hfs : findService (pyLower m) with
  | none => left; simp [handle_service_selection, hfs]
  | some sel =>
      right
      refine ⟨sel, ?_⟩
      cases hsg : servicesGet sel <;> simp [handle_service_selection, hfs, hsg]

/-- The time-selection stub always stamps tomorrow, 2:00 PM and moves to
client info. -/
theorem handle_time_selection_state (s : ConversationState) (m : String) :
    (handle_time_selection s m).1
      = { s with selected_date := some "tomorrow"
                 selected_time := some "2:00 PM"
                 step := "client_info" } := rfl

/-- The three cases of the client-info handler, with their guards. -/
theorem handle_client_info_state (s : ConversationState) (m : String) :
    (dictContains s.temp_data "name" = false ∧
      (handle_client_info s m).1
        = { s with temp_data := dictInsert s.temp_data "name" m })
  ∨ (dictContains s.temp_data "name" = true ∧
      dictContains s.temp_data "email" = false ∧
      (handle_client_info s m).1
        = { s with temp_data := dictInsert s.temp_data "email" m
                   step := "confirmation" })
  ∨ (dictContains s.temp_data "name" = true ∧
      dictContains s.temp_data "email" = true ∧
      (handle_client_info s m).1 = s) := by
  by_cases hn : dictContains s.temp_data "name" = true
  · by_cases he : dictContains s.temp_data "email" = true
    · right; right
      exact ⟨hn, he, by simp [handle_client_info, hn, he]⟩
    · right; left
      refine ⟨hn, by simpa using he, ?_⟩
      cases hsg : s.selected_service.bind servicesGet <;>
        simp [handle_client_info, hn, he, hsg]
  · left
    exact ⟨by simpa using hn, by simp [handle_client_info, hn]⟩

/-- The booking attempt leaves the record alone or completes it. -/
theorem bookingAttempt_state (db : Option DbService) (now : Nat)
    (s : ConversationState) :
    (bookingAttempt db now s).1 = s ∨
      (bookingAttempt db now s).1 = { s with step := "completed" } := by
  unfold bookingAttempt
  dsimp only
  repeat' split
  all_goals simp

/-- The confirmation handler leaves the record alone, completes it, or
cancels back to greeting. -/
theorem handle_confirmation_state (db : Option DbService) (now : Nat)
    (s : ConversationState) (m : String) :
    (handle_confirmation db now s m).1 = s
  ∨ (handle_confirmation db now s m).1 = { s with step := "completed" }
  ∨ (handle_confirmation db now s m).1 = { s with step := "greeting" } := by
  unfold handle_confirmation
  dsimp only
  split
  · rcases bookingAttempt_state db now s with h | h
    · exact Or.inl h
    · exact Or.inr (Or.inl h)
  · split
    · exact Or.inr (Or.inr rfl)
    · exact Or.inl rfl

end SmsBooking

namespace SmsBooking

/-- Which handler one dispatch runs, by the record's step. -/
theorem dispatchStep_cases (db : Option DbService) (now : Nat)
    (s : ConversationState) (m : String) :
    (s.step = "greeting" ∧ dispatchStep db now s m = handle_greeting s m)
  ∨ (s.step = "service_selection" ∧
      dispatchStep db now s m = handle_service_selection s m)
  ∨ (s.step = "time_selection" ∧
      dispatchStep db now s m = handle_time_selection s m)
  ∨ (s.step = "client_info" ∧
      dispatchStep db now s m = handle_client_info s m)
  ∨ (s.step = "confirmation" ∧
      dispatchStep db now s m = handle_confirmation db now s m)
  ∨ ((s.step ≠ "greeting" ∧ s.step ≠ "service_selection" ∧
        s.step ≠ "time_selection" ∧ s.step ≠ "client_info" ∧
        s.step ≠ "confirmation") ∧
      dispatchStep db now s m = handle_greeting s m) := by
  unfold dispatchStep
  by_cases h1 : s.step = "greeting"
  · exact Or.inl ⟨h1, by rw [if_pos h1]⟩
  · rw [if_neg h1]
    by_cases h2 : s.step = "service_selection"
    · exact Or.inr (Or.inl ⟨h2, by rw [if_pos h2]⟩)
    · rw [if_neg h2]
      by_cases h3 : s.step = "time_selection"
      · exact Or.inr (Or.inr (Or.inl ⟨h3, by rw [if_pos h3]⟩))
      · rw [if_neg h3]
        by_cases h4 : s.step = "client_info"
        · exact Or.inr (Or.inr (Or.inr (Or.inl ⟨h4, by rw [if_pos h4]⟩)))
        · rw [if_neg h4]
          by_cases h5 : s.step = "confirmation"
          · exact Or.inr (Or.inr (Or.inr (Or.inr (Or.inl ⟨h5, by rw [if_pos h5]⟩))))
          · rw [if_neg h5]
            exact Or.inr (Or.inr (Or.inr (Or.inr (Or.inr
              ⟨⟨h1, h2, h3, h4, h5⟩, rfl⟩))))

/-- The step movement of one dispatch: stay, enter service selection
from a non-mid-flow step, move one stage forward, or resolve the
confirmation (complete or cancel). -/
theorem dispatchStep_step (db : Option DbService) (now : Nat)
    (s : ConversationState) (m : String) :
    (dispatchStep db now s m).1.step = s.step
  ∨ ((s.step ≠ "service_selection" ∧ s.step ≠ "time_selection" ∧
        s.step ≠ "client_info" ∧ s.step ≠ "confirmation") ∧
      (dispatchStep db now s m).1.step = "service_selection")
  ∨ (s.step = "service_selection" ∧
      (dispatchStep db now s m).1.step = "time_selection")
  ∨ (s.step = "time_selection" ∧
      (dispatchStep db now s m).1.step = "client_info")
  ∨ (s.step = "client_info" ∧
      (dispatchStep db now s m).1.step = "confirmation")
  ∨ (s.step = "confirmation" ∧
      ((dispatchStep db now s m).1.step = "completed" ∨
        (dispatchStep db now s m).1.step = "greeting")) := by
  rcases dispatchStep_cases db now s m with
    ⟨hg, hd⟩ | ⟨hs, hd⟩ | ⟨ht, hd⟩ | ⟨hc, hd⟩ | ⟨hf, hd⟩ | ⟨⟨hn1, hn2, hn3, hn4, hn5⟩, hd⟩ <;>
    rw [hd]
  · rcases handle_greeting_state s m with h | h
    · exact Or.inl (by rw [h])
    · refine Or.inr (Or.inl ⟨⟨?_, ?_, ?_, ?_⟩, by rw [h]⟩) <;> rw [hg] <;> decide
  · rcases handle_service_selection_state s m with h | ⟨sel, h⟩
    · exact Or.inl (by rw [h])
    · exact Or.inr (Or.inr (Or.inl ⟨hs, by rw [h]⟩))
  · exact Or.inr (Or.inr (Or.inr (Or.inl ⟨ht, by rw [handle_time_selection_state]⟩)))
  · rcases handle_client_info_state s m with ⟨_, h⟩ | ⟨_, _, h⟩ | ⟨_, _, h⟩
    · exact Or.inl (by rw [h])
    · exact Or.inr (Or.inr (Or.inr (Or.inr (Or.inl ⟨hc, by rw [h]⟩))))
    · exact Or.inl (by rw [h])
  · rcases handle_confirmation_state db now s m with h | h | h
    · exact Or.inl (by rw [h])
    · exact Or.inr (Or.inr (Or.inr (Or.inr (Or.inr ⟨hf, Or.inl (by rw [h])⟩))))
    · exact Or.inr (Or.inr (Or.inr (Or.inr (Or.inr ⟨hf, Or.inr (by rw [h])⟩))))
  · rcases handle_greeting_state s m with h | h
    · exact Or.inl (by rw [h])
    · exact Or.inr (Or.inl ⟨⟨hn2, hn3, hn4, hn5⟩, by rw [h]⟩)

/-- The selected service changes only while the record sits at the
service-selection step. -/
theorem dispatchStep_service (db : Option DbService) (now : Nat)
    (s : ConversationState) (m : String) :
    (dispatchStep db now s m).1.selected_service = s.selected_service
  ∨ s.step = "service_selection" := by
  rcases dispatchStep_cases db now s m with
    ⟨hg, hd⟩ | ⟨hs, hd⟩ | ⟨ht, hd⟩ | ⟨hc, hd⟩ | ⟨hf, hd⟩ | ⟨_, hd⟩ <;> rw [hd]
  · rcases handle_greeting_state s m with h | h <;> exact Or.inl (by rw [h])
  · exact Or.inr hs
  · exact Or.inl (by rw [handle_time_selection_state])
  · rcases handle_client_info_state s m with ⟨_, h⟩ | ⟨_, _, h⟩ | ⟨_, _, h⟩ <;>
      exact Or.inl (by rw [h])
  · rcases handle_confirmation_state db now s m with h | h | h <;>
      exact Or.inl (by rw [h])
  · rcases handle_greeting_state s m with h | h <;> exact Or.inl (by rw [h])

/-- Captured `temp_data` fields persist through one dispatch. -/
theorem dispatchStep_temp_mono (db : Option DbService) (now : Nat)
    (s : ConversationState) (m k : String)
    (h : dictContains s.temp_data k = true) :
    dictContains (dispatchStep db now s m).1.temp_data k = true := by
  rcases dispatchStep_cases db now s m with
    ⟨hg, hd⟩ | ⟨hs, hd⟩ | ⟨ht, hd⟩ | ⟨hc, hd⟩ | ⟨hf, hd⟩ | ⟨_, hd⟩ <;> rw [hd]
  · rcases handle_greeting_state s m with hh | hh <;> rw [hh] <;> exact h
  · rcases handle_service_selection_state s m with hh | ⟨sel, hh⟩ <;> rw [hh] <;>
      exact h
  · rw [handle_time_selection_state]; exact h
  · rcases handle_client_info_state s m with ⟨_, hh⟩ | ⟨_, _, hh⟩ | ⟨_, _, hh⟩ <;>
      rw [hh]
    · exact dictContains_insert_mono _ _ _ _ h
    · exact dictContains_insert_mono _ _ _ _ h
    · exact h
  · rcases handle_confirmation_state db now s m with hh | hh | hh <;> rw [hh] <;>
      exact h
  · rcases handle_greeting_state s m with hh | hh <;> rw [hh] <;> exact h

/-- One dispatch preserves the confirmation-capture invariant. -/
theorem dispatchStep_confirmInv (db : Option DbService) (now : Nat)
    (s : ConversationState) (m : String) (hInv : confirmInv s) :
    confirmInv (dispatchStep db now s m).1 := by
  rcases dispatchStep_cases db now s m with
    ⟨hg, hd⟩ | ⟨hs, hd⟩ | ⟨ht, hd⟩ | ⟨hc, hd⟩ | ⟨hf, hd⟩ | ⟨⟨hn1, _, _, _, hn5⟩, hd⟩ <;>
    unfold confirmInv <;> rw [hd]
  · rcases handle_greeting_state s m with h | h <;> rw [h] <;> intro hstep
    · rw [hg] at hstep; simp at hstep
    · simp at hstep
  · rcases handle_service_selection_state s m with h | ⟨sel, h⟩ <;> rw [h] <;>
      intro hstep
    · rw [hs] at hstep; simp at hstep
    · simp at hstep
  · rw [handle_time_selection_state]
    intro hstep
    simp at hstep
  · rcases handle_client_info_state s m with ⟨_, h⟩ | ⟨hname, _, h⟩ | ⟨_, _, h⟩ <;>
      rw [h] <;> intro hstep
    · rw [hc] at hstep; simp at hstep
    · exact ⟨dictContains_insert_mono _ _ _ _ hname, dictContains_insert_self _ _ _⟩
    · rw [hc] at hstep; simp at hstep
  · rcases handle_confirmation_state db now s m with h | h | h <;> rw [h] <;>
      intro hstep
    · exact hInv hf
    · simp at hstep
    · simp at hstep
  · rcases handle_greeting_state s m with h | h <;> rw [h] <;> intro hstep
    · exact absurd hstep hn5
    · simp at hstep

end SmsBooking

namespace SmsBooking

/-- One call either stores the merged record unchanged or stores the
dispatched record; the stored step is read back accordingly. -/
theorem process_message_stepOfD (db : Option DbService) (now : Nat)
    (convs : ConvMap) (phone m : String) (ci : Option ClientInfo) :
    stepOfD (process_message db now convs phone m ci).1 phone
      = stepOfD convs phone
  ∨ stepOfD (process_message db now convs phone m ci).1 phone
      = (dispatchStep db now (mergedState convs phone now ci) m).1.step := by
  rcases process_message_store db now convs phone m ci with h | h <;>
    rw [h, stepOfD_convInsert]
  · exact Or.inl (mergedState_step _ _ _ _)
  · exact Or.inr rfl

/-- The stored step names one of the six conversation stages. -/
theorem validStepB_cases {a : String} (h : validStepB a = true) :
    a = "greeting" ∨ a = "service_selection" ∨ a = "time_selection" ∨
    a = "client_info" ∨ a = "confirmation" ∨ a = "completed" := by
  simp [validStepB] at h
  tauto

/-- One call keeps the stored step among the six stages. -/
theorem process_message_valid (db : Option DbService) (now : Nat)
    (convs : ConvMap) (phone m : String) (ci : Option ClientInfo)
    (h : validStepB (stepOfD convs phone) = true) :
    validStepB (stepOfD (process_message db now convs phone m ci).1 phone)
      = true := by
  rcases process_message_stepOfD db now convs phone m ci with he | he <;> rw [he]
  · exact h
  · have hs := mergedState_step convs phone now ci
    rcases dispatchStep_step db now (mergedState convs phone now ci) m with
      hd | ⟨_, hd⟩ | ⟨_, hd⟩ | ⟨_, hd⟩ | ⟨_, hd⟩ | ⟨_, hd | hd⟩ <;> rw [hd] <;>
      first
        | (rw [hs]; exact h)
        | decide

/-- Every run from a store with a valid step keeps the step valid. -/
theorem runCalls_valid (db : Option DbService) (phone : String)
    (calls : List Call) :
    ∀ convs, validStepB (stepOfD convs phone) = true →
      validStepB (stepOfD (runCalls db phone convs calls) phone) = true := by
  induction calls with
  | nil => intro convs h; exact h
  | cons c rest ih =>
      intro convs h
      exact ih _ (process_message_valid db c.now convs phone c.message
        c.client_info h)

/-- One call from a valid step satisfies the admissible step movement. -/
theorem stepOk_of_valid (db : Option DbService) (now : Nat) (convs : ConvMap)
    (phone m : String) (ci : Option ClientInfo)
    (hv : validStepB (stepOfD convs phone) = true) :
    stepOk (stepOfD convs phone)
      (stepOfD (process_message db now convs phone m ci).1 phone) := by
  rcases process_message_stepOfD db now convs phone m ci with he | he <;> rw [he]
  · exact Or.inl le_rfl
  · have hs := mergedState_step convs phone now ci
    rcases dispatchStep_step db now (mergedState convs phone now ci) m with
      hd | ⟨⟨hn1, hn2, hn3, hn4⟩, hd⟩ | ⟨ha, hd⟩ | ⟨ha, hd⟩ | ⟨ha, hd⟩ |
      ⟨ha, hd | hd⟩ <;> rw [hd]
    · rw [hs]; exact Or.inl le_rfl
    · rw [hs] at hn1 hn2 hn3 hn4
      rcases validStepB_cases hv with h | h | h | h | h | h
      · exact Or.inl (by rw [h]; decide)
      · exact absurd h hn1
      · exact absurd h hn2
      · exact absurd h hn3
      · exact absurd h hn4
      · exact Or.inr (Or.inr ⟨h, rfl⟩)
    · rw [hs] at ha; exact Or.inl (by rw [ha]; decide)
    · rw [hs] at ha; exact Or.inl (by rw [ha]; decide)
    · rw [hs] at ha; exact Or.inl (by rw [ha]; decide)
    · rw [hs] at ha; exact Or.inl (by rw [ha]; decide)
    · rw [hs] at ha; exact Or.inr (Or.inl ⟨ha, rfl⟩)

/-- C3 (amended): over any run from a fresh store, a further call never
moves the record's step backwards in the booking order, except the cancel
transition Confirmation → Greeting and the restart of a completed record
by a new booking request (Completed → ServiceSelection). -/
theorem step_forward_only_amended (db : Option DbService) (phone : String)
    (calls : List Call) (c : Call) :
    stepOk (stepOfD (runCalls db phone [] calls) phone)
      (stepOfD (process_message db c.now (runCalls db phone [] calls) phone
          c.message c.client_info).1 phone) := by
  have hv : validStepB (stepOfD (runCalls db phone [] calls) phone) = true :=
    runCalls_valid db phone calls [] rfl
  exact stepOk_of_valid db c.now _ phone c.message c.client_info hv

/-- One call changes the stored selected service only from the
service-selection step. -/
theorem process_message_service (db : Option DbService) (now : Nat)
    (convs : ConvMap) (phone m : String) (ci : Option ClientInfo) :
    serviceOfD (process_message db now convs phone m ci).1 phone
      = serviceOfD convs phone
  ∨ stepOfD convs phone = "service_selection" := by
  rcases process_message_store db now convs phone m ci with h | h <;>
    rw [h, serviceOfD_convInsert]
  · exact Or.inl (mergedState_service _ _ _ _)
  · rcases dispatchStep_service db now (mergedState convs phone now ci) m with
      hd | hd
    · rw [hd, mergedState_service]; exact Or.inl rfl
    · rw [mergedState_step] at hd; exact Or.inr hd

/-- Over any run, a set selected service traces back to a moment the
record sat at the service-selection step, or it was set at the start. -/
theorem runCalls_service (db : Option DbService) (phone : String)
    (calls : List Call) :
    ∀ convs, serviceOfD (runCalls db phone convs calls) phone ≠ none →
      serviceOfD convs phone ≠ none ∨
        ∃ n, stepOfD (runCalls db phone convs (calls.take n)) phone
          = "service_selection" := by
  induction calls with
  | nil => intro convs h; exact Or.inl h
  | cons c rest ih =>
      intro convs h
      rcases ih (process_message db c.now convs phone c.message c.client_info).1
          h with h1 | ⟨n, hn⟩
      · rcases process_message_service db c.now convs phone c.message
            c.client_info with h2 | h2
        · exact Or.inl (by rw [← h2]; exact h1)
        · exact Or.inr ⟨0, h2⟩
      · exact Or.inr ⟨n + 1, hn⟩

/-- C4 (amended): after any sequence of calls from a fresh store, the
record's `selected_service` is set only if the conversation has at some
earlier point sat at the service-selection step (in particular it can
still be set at the greeting step right after a cancellation). -/
theorem selected_service_requires_service_selection (db : Option DbService)
    (phone : String) (calls : List Call)
    (h : serviceOfD (runCalls db phone [] calls) phone ≠ none) :
    ∃ n, stepOfD (runCalls db phone [] (calls.take n)) phone
      = "service_selection" := by
  rcases runCalls_service db phone calls [] h with h1 | h2
  · exact absurd rfl h1
  · exact h2

/-- Witness for C4 (amended) on a concrete two-message run. -/
theorem selected_service_requires_service_selection_witness :
    ∃ n, stepOfD (runCalls (some okDb) phNum []
        ([⟨0, "book", none⟩, ⟨1, "haircut", none⟩].take n)) phNum
      = "service_selection" :=
  selected_service_requires_service_selection (some okDb) phNum
    [⟨0, "book", none⟩, ⟨1, "haircut", none⟩] (by decide)

/-- One call preserves the confirmation-capture invariant of the store. -/
theorem process_message_confirmInv (db : Option DbService) (now : Nat)
    (convs : ConvMap) (phone m : String) (ci : Option ClientInfo)
    (hInv : stepOfD convs phone = "confirmation" →
      tempHas convs phone "name" = true ∧ tempHas convs phone "email" = true) :
    stepOfD (process_message db now convs phone m ci).1 phone = "confirmation" →
      tempHas (process_message db now convs phone m ci).1 phone "name" = true ∧
      tempHas (process_message db now convs phone m ci).1 phone "email"
        = true := by
  have hrec : confirmInv (mergedState convs phone now ci) := by
    intro hstep
    rw [mergedState_step] at hstep
    rw [mergedState_tempHas, mergedState_tempHas]
    exact hInv hstep
  rcases process_message_store db now convs phone m ci with h | h <;>
    rw [h, stepOfD_convInsert, tempHas_convInsert, tempHas_convInsert]
  · exact hrec
  · exact dispatchStep_confirmInv db now _ m hrec

/-- Every run preserves the confirmation-capture invariant of the store. -/
theorem runCalls_confirmInv (db : Option DbService) (phone : String)
    (calls : List Call) :
    ∀ convs, (stepOfD convs phone = "confirmation" →
        tempHas convs phone "name" = true ∧
        tempHas convs phone "email" = true) →
      stepOfD (runCalls db phone convs calls) phone = "confirmation" →
        tempHas (runCalls db phone convs calls) phone "name" = true ∧
        tempHas (runCalls db phone convs calls) phone "email" = true := by
  induction calls with
  | nil => intro convs h; exact h
  | cons c rest ih =>
      intro convs h
      exact ih _ (process_message_confirmInv db c.now convs phone c.message
        c.client_info h)

/-- C7: whenever a run from a fresh store leaves the record at the
confirmation step, both a name and an email have been recorded in its
`temp_data`. -/
theorem confirmation_requires_full_capture (db : Option DbService)
    (phone : String) (calls : List Call)
    (h : stepOfD (runCalls db phone [] calls) phone = "confirmation") :
    tempHas (runCalls db phone [] calls) phone "name" = true ∧
    tempHas (runCalls db phone [] calls) phone "email" = true :=
  runCalls_confirmInv db phone calls []
    (fun hc =>
      absurd (show ("greeting" : String) = "confirmation" from hc) (by decide))
    h

/-- Witness for C7 on the happy-path prefix that reaches confirmation. -/
theorem confirmation_requires_full_capture_witness :
    tempHas (runCalls (some okDb) phNum [] happyFive) phNum "name" = true ∧
    tempHas (runCalls (some okDb) phNum [] happyFive) phNum "email" = true :=
  confirmation_requires_full_capture (some okDb) phNum happyFive (by decide)

end SmsBooking

namespace SmsBooking

/-- A record at the confirmation step dispatches to the confirmation
handler. -/
theorem dispatchStep_confirmation (db : Option DbService) (now : Nat)
    (s : ConversationState) (m : String) (h : s.step = "confirmation") :
    dispatchStep db now s m = handle_confirmation db now s m := by
  rcases dispatchStep_cases db now s m with
    ⟨hg, hd⟩ | ⟨hs, hd⟩ | ⟨ht, hd⟩ | ⟨hc, hd⟩ | ⟨hf, hd⟩ | ⟨⟨_, _, _, _, hn5⟩, hd⟩
  · rw [h] at hg; exact absurd hg (by decide)
  · rw [h] at hs; exact absurd hs (by decide)
  · rw [h] at ht; exact absurd ht (by decide)
  · rw [h] at hc; exact absurd hc (by decide)
  · exact hd
  · exact absurd h hn5

/-- A record at the greeting step dispatches to the greeting handler. -/
theorem dispatchStep_greeting (db : Option DbService) (now : Nat)
    (s : ConversationState) (m : String) (h : s.step = "greeting") :
    dispatchStep db now s m = handle_greeting s m := by
  rcases dispatchStep_cases db now s m with
    ⟨hg, hd⟩ | ⟨hs, hd⟩ | ⟨ht, hd⟩ | ⟨hc, hd⟩ | ⟨hf, hd⟩ | ⟨⟨hn1, _, _, _, _⟩, hd⟩
  · exact hd
  · rw [h] at hs; exact absurd hs (by decide)
  · rw [h] at ht; exact absurd ht (by decide)
  · rw [h] at hc; exact absurd hc (by decide)
  · rw [h] at hf; exact absurd hf (by decide)
  · exact absurd h hn1

/-- A non-empty optional reply is truthy. -/
theorem respTruthy_of_ne (s : String) (h : s ≠ "") :
    respTruthy (some s) = true := by
  simp [respTruthy, h]

/-- Appending to a non-empty string keeps it non-empty. -/
theorem append_ne_empty_left (a b : String) (h : a ≠ "") : a ++ b ≠ "" := by
  cases a with
  | mk da =>
      cases b with
      | mk db =>
          intro hc
          apply h
          have hd : da ++ db = ([] : List Char) := congrArg String.data hc
          have hda : da = [] := (List.append_eq_nil.mp hd).1
          rw [hda]

/-- The booking attempt always returns a truthy reply dictionary. -/
theorem bookingAttempt_result (db : Option DbService) (now : Nat)
    (s : ConversationState) :
    ∃ r, (bookingAttempt db now s).2 = some r ∧
      respTruthy r.response = true := by
  have hne : ("Excellent! Your appointment is confirmed for " : String) ≠ "" :=
    by decide
  unfold bookingAttempt
  dsimp only
  repeat' split
  all_goals refine ⟨_, rfl, ?_⟩
  all_goals try exact respTruthy_of_ne _ (by decide)
  all_goals try exact respTruthy_of_ne _ (append_ne_empty_left _ _
    (append_ne_empty_left _ _ (append_ne_empty_left _ _
      (append_ne_empty_left _ _ hne))))

/-- A confirming message at the confirmation step runs the booking
attempt: the call stores the attempt's record and returns its result. -/
theorem process_message_confirm_yes (db : Option DbService) (now : Nat)
    (convs : ConvMap) (phone m : String) (s : ConversationState)
    (hl : List.lookup phone convs = some s)
    (hstep : s.step = "confirmation")
    (hyes : yesWords.contains (pyLower m) = true) :
    process_message db now convs phone m none
      = (convInsert convs phone
          (bookingAttempt db now { s with last_activity := now }).1,
         (bookingAttempt db now { s with last_activity := now }).2) := by
  have hm : mergedState convs phone now none = { s with last_activity := now } := by
    unfold mergedState
    rw [hl]
  have hms : (mergedState convs phone now none).step = "confirmation" := by
    rw [hm]; exact hstep
  have hcond : ¬((mergedState convs phone now none).step = "greeting" ∧
      (bookingWords.any fun w => strContains (pyLower m) w) = false) := by
    intro hc
    rw [hms] at hc
    exact absurd hc.1 (by decide)
  have hd : dispatchStep db now (mergedState convs phone now none) m
      = handle_confirmation db now (mergedState convs phone now none) m :=
    dispatchStep_confirmation db now _ m hms
  unfold process_message
  dsimp only
  rw [if_neg hcond, hd]
  unfold handle_confirmation
  dsimp only
  rw [if_pos hyes, hm]
  obtain ⟨r, hr, hrt⟩ :=
    bookingAttempt_result db now { s with last_activity := now }
  rw [hr]
  dsimp only
  rw [if_pos hrt]

end SmsBooking

namespace SmsBooking

/-- C5 (amended): at the confirmation step the inbound message is only
lowercased, never trimmed.  A lowercased exact match of the yes-set runs
the booking attempt; a match of the no-set resets to greeting with the
cancellation reply and no `booking_confirmed`; anything else (including
a confirming word with surrounding spaces, which the untrimmed comparison
misses) stays at confirmation and re-prompts. -/
theorem confirmation_matching_amended (db : Option DbService) (now : Nat)
    (convs : ConvMap) (phone m : String) (s : ConversationState)
    (hl : List.lookup phone convs = some s)
    (hstep : s.step = "confirmation") :
    (yesWords.contains (pyLower m) = true →
      process_message db now convs phone m none
        = (convInsert convs phone
            (bookingAttempt db now { s with last_activity := now }).1,
           (bookingAttempt db now { s with last_activity := now }).2)) ∧
    (noWords.contains (pyLower m) = true →
      yesWords.contains (pyLower m) = false →
      stepOfD (process_message db now convs phone m none).1 phone
          = "greeting" ∧
      (process_message db now convs phone m none).2
        = some { response := some cancelMsg, step := "greeting",
                 booking_cancelled := some true, requires_booking := false }) ∧
    (yesWords.contains (pyLower m) = false →
      noWords.contains (pyLower m) = false →
      stepOfD (process_message db now convs phone m none).1 phone
          = "confirmation" ∧
      (process_message db now convs phone m none).2
        = some { response := some repromptMsg, step := "confirmation",
                 requires_booking := true }) ∧
    yesWords.contains (pyLower " yes ") = false := by
  have hm : mergedState convs phone now none
      = { s with last_activity := now } := by
    unfold mergedState
    rw [hl]
  have hms : (mergedState convs phone now none).step = "confirmation" := by
    rw [hm]; exact hstep
  have hcond : ¬((mergedState convs phone now none).step = "greeting" ∧
      (bookingWords.any fun w => strContains (pyLower m) w) = false) := by
    intro hc
    rw [hms] at hc
    exact absurd hc.1 (by decide)
  have hd : dispatchStep db now (mergedState convs phone now none) m
      = handle_confirmation db now (mergedState convs phone now none) m :=
    dispatchStep_confirmation db now _ m hms
  refine ⟨?_, ?_, ?_, by decide⟩
  · intro hyes
    exact process_message_confirm_yes db now convs phone m s hl hstep hyes
  · intro hno hyes
    unfold process_message
    dsimp only
    rw [if_neg hcond, hd]
    unfold handle_confirmation
    dsimp only
    rw [if_neg (by simp only [hyes]; decide), if_pos hno]
    dsimp only
    rw [if_pos (respTruthy_of_ne _ (by decide))]
    exact ⟨by rw [stepOfD_convInsert], rfl⟩
  · intro hyes hno
    unfold process_message
    dsimp only
    rw [if_neg hcond, hd]
    unfold handle_confirmation
    dsimp only
    rw [if_neg (by simp only [hyes]; decide), if_neg (by simp only [hno]; decide)]
    dsimp only
    rw [if_pos (respTruthy_of_ne _ (by decide))]
    refine ⟨?_, rfl⟩
    rw [stepOfD_convInsert, hm]
    exact hstep

/-- Witness for C5 (amended) at the concrete confirmation store with the
message "no". -/
theorem confirmation_matching_amended_witness :
    (yesWords.contains (pyLower "no") = true →
      process_message (some okDb) 9 confStore phNum "no" none
        = (convInsert confStore phNum
            (bookingAttempt (some okDb) 9
              { confState with last_activity := 9 }).1,
           (bookingAttempt (some okDb) 9
              { confState with last_activity := 9 }).2)) ∧
    (noWords.contains (pyLower "no") = true →
      yesWords.contains (pyLower "no") = false →
      stepOfD (process_message (some okDb) 9 confStore phNum "no" none).1 phNum
          = "greeting" ∧
      (process_message (some okDb) 9 confStore phNum "no" none).2
        = some { response := some cancelMsg, step := "greeting",
                 booking_cancelled := some true, requires_booking := false }) ∧
    (yesWords.contains (pyLower "no") = false →
      noWords.contains (pyLower "no") = false →
      stepOfD (process_message (some okDb) 9 confStore phNum "no" none).1 phNum
          = "confirmation" ∧
      (process_message (some okDb) 9 confStore phNum "no" none).2
        = some { response := some repromptMsg, step := "confirmation",
                 requires_booking := true }) ∧
    yesWords.contains (pyLower " yes ") = false :=
  confirmation_matching_amended (some okDb) 9 confStore phNum "no" confState
    (by decide) (by decide)

/-- C6 (amended): at the greeting step, exactly the messages containing
one of the booking keywords book / appointment / schedule transition to
service selection with the catalog reply; the other booking-relevance
keywords (such as "haircut" or "price") leave the step unchanged and
defer to the LLM. -/
theorem greeting_booking_keywords (db : Option DbService) (now : Nat)
    (convs : ConvMap) (phone m : String) (ci : Option ClientInfo)
    (hstep : stepOfD convs phone = "greeting")
    (hkw : strContains (pyLower m) "book" = true ∨
      strContains (pyLower m) "appointment" = true ∨
      strContains (pyLower m) "schedule" = true) :
    ((process_message db now convs phone m ci).2.map ResultDict.step)
      = some "service_selection" ∧
    ((process_message db now convs phone m ci).2.bind ResultDict.response)
      = some greetingBookingMsg ∧
    stepOfD (process_message db now convs phone m ci).1 phone
      = "service_selection" := by
  have hms : (mergedState convs phone now ci).step = "greeting" := by
    rw [mergedState_step, hstep]
  have hb : (bookingWords.any fun w => strContains (pyLower m) w) = true := by
    rcases hkw with h | h | h <;> simp [bookingWords, h]
  have hbg : (greetBookWords.any fun w => strContains (pyLower m) w) = true := by
    rcases hkw with h | h | h <;> simp [greetBookWords, h]
  have hd : dispatchStep db now (mergedState convs phone now ci) m
      = handle_greeting (mergedState convs phone now ci) m :=
    dispatchStep_greeting db now _ m hms
  have hg : handle_greeting (mergedState convs phone now ci) m
      = ({ mergedState convs phone now ci with step := "service_selection" },
         some { response := some greetingBookingMsg,
                step := "service_selection", requires_booking := true }) := by
    unfold handle_greeting
    dsimp only
    rw [if_pos hbg]
  unfold process_message
  dsimp only
  rw [if_neg (by simp [hb]), hd, hg]
  dsimp only
  rw [if_pos (respTruthy_of_ne _ (by decide))]
  exact ⟨rfl, rfl, by rw [stepOfD_convInsert]⟩

/-- Witness for C6 (amended) on a fresh store and the message "book". -/
theorem greeting_booking_keywords_witness :
    ((process_message none 0 [] phNum "book" none).2.map ResultDict.step)
      = some "service_selection" ∧
    ((process_message none 0 [] phNum "book" none).2.bind ResultDict.response)
      = some greetingBookingMsg ∧
    stepOfD (process_message none 0 [] phNum "book" none).1 phNum
      = "service_selection" :=
  greeting_booking_keywords none 0 [] phNum "book" none rfl
    (Or.inl (by decide))

end SmsBooking

namespace SmsBooking

/-- When every `create_appointment` call fails, the booking attempt
leaves the record alone and returns the catch-all error dictionary. -/
theorem bookingAttempt_createFails (dbs : DbService) (now : Nat)
    (s : ConversationState) (hfail : createFails dbs) :
    (bookingAttempt (some dbs) now s).1 = s ∧
    ∃ e, (bookingAttempt (some dbs) now s).2 = some (errorResult e) := by
  unfold bookingAttempt
  dsimp only
  repeat' split
  all_goals try exact ⟨rfl, _, rfl⟩
  next _ _ _ _ _ _ _ _ appt heq =>
    exact absurd heq (hfail _ _ _ _ _ _)

/-- When the persistence layer cannot produce an appointment, the
booking attempt leaves the record alone and reports an error result. -/
theorem bookingAttempt_gatewayFails (db : Option DbService) (now : Nat)
    (s : ConversationState) (hfail : gatewayFails db) :
    (bookingAttempt db now s).1 = s ∧
    ∃ r, (bookingAttempt db now s).2 = some r ∧ r.step = "error" ∧
      r.error ≠ none ∧ r.booking_confirmed = none := by
  cases db with
  | none =>
      unfold bookingAttempt
      dsimp only
      repeat' split
      all_goals exact ⟨rfl, _, rfl, rfl, by simp [errorResult], rfl⟩
  | some dbs =>
      obtain ⟨h1, e, h2⟩ := bookingAttempt_createFails dbs now s hfail
      exact ⟨h1, errorResult e, h2, rfl, by simp [errorResult], rfl⟩

/-- C8: when the user confirms and the gateway's `create_appointment`
raises or returns a falsy value, `process_message` returns (without
raising) a result whose error is non-null, whose reply is the booking
apology directing the caller to phone the business, and which carries no
`booking_confirmed`. -/
theorem persistence_failure_apology (dbs : DbService) (now : Nat)
    (convs : ConvMap) (phone m : String) (s : ConversationState)
    (hl : List.lookup phone convs = some s)
    (hstep : s.step = "confirmation")
    (hyes : yesWords.contains (pyLower m) = true)
    (hfail : createFails dbs) :
    ((process_message (some dbs) now convs phone m none).2.bind
        ResultDict.error) ≠ none ∧
    ((process_message (some dbs) now convs phone m none).2.bind
        ResultDict.response) = some bookingErrorMsg ∧
    ((process_message (some dbs) now convs phone m none).2.bind
        ResultDict.booking_confirmed) = none ∧
    ((process_message (some dbs) now convs phone m none).2.map
        ResultDict.step) = some "error" := by
  rw [process_message_confirm_yes (some dbs) now convs phone m s hl hstep hyes]
  obtain ⟨h1, e, h2⟩ := bookingAttempt_createFails dbs now
    { s with last_activity := now } hfail
  refine ⟨?_, ?_, ?_, ?_⟩ <;> simp [h2, errorResult]

/-- Witness for C8 at the concrete confirmation store and the gateway
whose `create_appointment` returns a falsy value. -/
theorem persistence_failure_apology_witness :
    ((process_message (some falsyDb) 9 confStore phNum "yes" none).2.bind
        ResultDict.error) ≠ none ∧
    ((process_message (some falsyDb) 9 confStore phNum "yes" none).2.bind
        ResultDict.response) = some bookingErrorMsg ∧
    ((process_message (some falsyDb) 9 confStore phNum "yes" none).2.bind
        ResultDict.booking_confirmed) = none ∧
    ((process_message (some falsyDb) 9 confStore phNum "yes" none).2.map
        ResultDict.step) = some "error" :=
  persistence_failure_apology falsyDb 9 confStore phNum "yes" confState
    (by decide) (by decide) (by decide)
    (by
      intro cid dt svc dur notes a h
      simp [falsyDb, okDb] at h)

/-- C10 (counterexample): the failing confirmation call does change the
stored record: its `last_activity` is stamped with the call's instant. -/
theorem record_changed_on_failure :
    List.lookup phNum (process_message (some falsyDb) 5
        (runCalls (some okDb) phNum [] happyFive) phNum "yes" none).1
      ≠ List.lookup phNum (runCalls (some okDb) phNum [] happyFive) := by
  decide

/-- C10 (amended): when the user confirms and the persistence layer
cannot create the appointment (absent `db_service`, raising gateway, or
falsy return), the stored record is unchanged except for the
`last_activity` stamp — in particular its step remains confirmation while
the returned result reports step "error" — and any subsequent confirming
message runs the booking attempt again. -/
theorem persistence_failure_keeps_confirmation (db : Option DbService)
    (now : Nat) (convs : ConvMap) (phone m : String) (s : ConversationState)
    (hl : List.lookup phone convs = some s)
    (hstep : s.step = "confirmation")
    (hyes : yesWords.contains (pyLower m) = true)
    (hfail : gatewayFails db) :
    List.lookup phone (process_message db now convs phone m none).1
      = some { s with last_activity := now } ∧
    stepOfD (process_message db now convs phone m none).1 phone
      = "confirmation" ∧
    ((process_message db now convs phone m none).2.map ResultDict.step)
      = some "error" ∧
    ((process_message db now convs phone m none).2.bind ResultDict.error)
      ≠ none ∧
    (∀ (db2 : Option DbService) (now2 : Nat) (m2 : String),
      yesWords.contains (pyLower m2) = true →
      (process_message db2 now2 (process_message db now convs phone m none).1
          phone m2 none).2
        = (bookingAttempt db2 now2 { s with last_activity := now2 }).2) := by
  rw [process_message_confirm_yes db now convs phone m s hl hstep hyes]
  obtain ⟨h1, r, h2, hrs, hre, hrb⟩ := bookingAttempt_gatewayFails db now
    { s with last_activity := now } hfail
  rw [h1, h2]
  refine ⟨lookup_convInsert_self _ _ _, ?_, ?_, ?_, ?_⟩
  · rw [stepOfD_convInsert]; exact hstep
  · simp [hrs]
  · simpa using hre
  · intro db2 now2 m2 hy2
    rw [process_message_confirm_yes db2 now2 _ phone m2
      { s with last_activity := now } (lookup_convInsert_self _ _ _) hstep hy2]

/-- Witness for C10 (amended) at the concrete confirmation store and the
falsy gateway. -/
theorem persistence_failure_keeps_confirmation_witness :
    List.lookup phNum (process_message (some falsyDb) 9 confStore phNum "yes"
        none).1 = some { confState with last_activity := 9 } ∧
    stepOfD (process_message (some falsyDb) 9 confStore phNum "yes" none).1
        phNum = "confirmation" ∧
    ((process_message (some falsyDb) 9 confStore phNum "yes" none).2.map
        ResultDict.step) = some "error" ∧
    ((process_message (some falsyDb) 9 confStore phNum "yes" none).2.bind
        ResultDict.error) ≠ none ∧
    (∀ (db2 : Option DbService) (now2 : Nat) (m2 : String),
      yesWords.contains (pyLower m2) = true →
      (process_message db2 now2 (process_message (some falsyDb) 9 confStore
          phNum "yes" none).1 phNum m2 none).2
        = (bookingAttempt db2 now2
            { confState with last_activity := now2 }).2) :=
  persistence_failure_keeps_confirmation (some falsyDb) 9 confStore phNum
    "yes" confState (by decide) (by decide) (by decide)
    (by
      intro cid dt svc dur notes a h
      simp [falsyDb, okDb] at h)

end SmsBooking
